import Mathlib

/-!
Verification development for the `sul` expression-language core
(`src/main.rs`, with the orphaned newer module `src/types.rs`).

The Rust source is shallowly embedded as follows:

* `Var` (an `Rc<RefCell<LispType>>` cell) is an address (`Nat`) into the
  `cells` heap of an explicit state `St`; creating a cell appends to the
  heap, and `new_ref` (aliasing) is sharing the address.
* Each `Statement`'s `res : RefCell<Option<Var>>` slot is a distinct id
  (allocated from the `nextCache` counter); writes to these `RefCell`s are
  recorded as a log `caches : List (Nat × Option Nat)` whose *first* entry
  for an id is the slot's current content.
* `println!` output is the `output : List String` field (one entry per line).
* Rust panics (index out of bounds, `unwrap` on `None`, `clone` of a
  non-clonable variant, debug-mode integer overflow) are the `Res.panic`
  constructor; `Box<dyn Error>` results are `Res.err` carrying the
  displayed message.  Side effects performed before an error persist, so
  `Res.err` also carries the state.
* The evaluation functions (`Statement::resolve`, `IntrinsicOp::call`,
  `Var::resolve`, `Display for LispType`) are mutually recursive through
  the heap, so they are embedded as one function `eval` over a request
  type, structurally recursive on a fuel parameter that every internal
  call decrements; `Res.timeout` is the out-of-fuel artifact.
* `isize` is embedded as `Int` with the 64-bit range made explicit where
  the Rust code can overflow (`sum += i`, `product *= i`, `sum -= i`,
  literal parsing); debug-profile Rust aborts there, embedded as a panic.
* `f64` literal *classification* is embedded faithfully (the grammar
  accepted by `str::parse::<f64>`), but the IEEE-754 payload is
  represented by its source text: no operation of the program inspects a
  `Floating` payload other than `Display`, which is only observable for
  texts whose Rust float formatting round-trips; no theorem below relies
  on displaying a `Floating`.
-/
set_option maxRecDepth 20000

namespace Sul

/-- Source coordinate (`struct Location` in main.rs). -/
structure Location where
  filename : String
  line : Nat
  col : Nat
deriving DecidableEq, Repr

/-- Display for Location: `write!(f, "{}:{}:{}", self.filename, self.line, self.col)`. -/
def locString (l : Location) : String :=
  l.filename ++ ":" ++ toString l.line ++ ":" ++ toString l.col

/-- The four built-in operations (`enum IntrinsicOp`). -/
inductive IntrinsicOp where
  | Add
  | Subtract
  | Print
  | Multiply
deriving DecidableEq, Repr

/-- A parsed call node (`struct Statement`).  `args` and `op` are cell
addresses; `res` is the id of this node's write-only result slot. -/
structure Stmt where
  args : List Nat
  op : Nat
  res : Nat
  loc : Location
deriving DecidableEq, Repr

/-- Runtime tagged value (`enum LispType` in main.rs).  `List` holds cell
addresses; `Floating` holds the literal's source text (see header note). -/
inductive LispType where
  | Integer (i : Int)
  | Str (s : String)
  | Func (f : IntrinsicOp)
  | Statement (st : Stmt)
  | List (cells : List Nat)
  | Floating (text : String)
  | Nil
deriving DecidableEq, Repr

/-- Token payload (`enum TokenType`). -/
inductive TokenType where
  | OpenParens
  | CloseParens
  | Recognizable (v : LispType)
  | Ident (s : String)
deriving DecidableEq, Repr

/-- A located token (`struct Token`). -/
structure Token where
  loc : Location
  dat : TokenType
deriving DecidableEq, Repr

/-! ## The literal classifier (`impl<T: ToString> From<T> for TokenType`) -/
/-- Value of a nonempty all-ASCII-digit character list, as
`str::parse` accumulates it. -/
def digitsVal : List Char → Option Nat
  | [] => none
  | [c] => if c.isDigit then some (c.toNat - '0'.toNat) else none
  | c :: rest =>
    if c.isDigit then
      (digitsVal rest).map (fun n => (c.toNat - '0'.toNat) * 10 ^ rest.length + n)
    else none

/-- Embedding of `s.parse::<isize>()`: optional single sign, one or more
ASCII digits, result within the signed 64-bit range (overflow is `Err`). -/
def parseIsize (s : String) : Option Int :=
  match s.data with
  | [] => none
  | '+' :: rest =>
    (digitsVal rest).bind fun n =>
      if (n : Int) ≤ 9223372036854775807 then some (n : Int) else none
  | '-' :: rest =>
    (digitsVal rest).bind fun n =>
      if (n : Int) ≤ 9223372036854775808 then some (-(n : Int)) else none
  | l =>
    (digitsVal l).bind fun n =>
      if (n : Int) ≤ 9223372036854775807 then some (n : Int) else none

/-- Character list is nonempty and all ASCII digits. -/
def isDigits (l : List Char) : Bool :=
  !l.isEmpty && l.all Char.isDigit

/-- Mantissa grammar of `str::parse::<f64>`:
`Digits '.'? Digits?` or `'.' Digits`. -/
def isMantissa (l : List Char) : Bool :=
  match l.span (fun c => c.isDigit) with
  | (pre, []) => isDigits pre
  | (pre, '.' :: post) =>
    (isDigits pre && (post.isEmpty || isDigits post)) ||
      (pre.isEmpty && isDigits post)
  | _ => false

/-- Split at the first exponent marker `e`/`E`, if any. -/
def splitExp (l : List Char) : List Char × Option (List Char) :=
  match l.span (fun c => c ≠ 'e' && c ≠ 'E') with
  | (pre, []) => (pre, none)
  | (pre, _ :: post) => (pre, some post)

/-- Exponent grammar: optional sign then one or more digits. -/
def isExp (l : List Char) : Bool :=
  match l with
  | '+' :: rest => isDigits rest
  | '-' :: rest => isDigits rest
  | rest => isDigits rest

/-- Recognizer for the grammar accepted by `s.parse::<f64>()`:
optional sign, then (case-insensitively) `inf`/`infinity`/`nan`, or a
mantissa with an optional exponent. -/
def isF64 (s : String) : Bool :=
  let body :=
    match s.data with
    | '+' :: rest => rest
    | '-' :: rest => rest
    | l => l
  let lower := body.map Char.toLower
  lower = ['i', 'n', 'f'] ||
    lower = ['i', 'n', 'f', 'i', 'n', 'i', 't', 'y'] ||
    lower = ['n', 'a', 'n'] ||
    (match splitExp body with
     | (mant, none) => isMantissa mant
     | (mant, some e) => isMantissa mant && isExp e)

/-- `s.starts_with('\"') && s.ends_with('\"')`. -/
def isQuoted (s : String) : Bool :=
  (match s.data with | [] => false | c :: _ => c = '"') &&
    (match s.data.getLast? with | none => false | some c => c = '"')

/-- The two `String::remove` calls of the quoted branch: drop the first
and last characters. -/
def stripQuotes (s : String) : String :=
  String.mk ((s.data.drop 1).dropLast)

/-- The literal classifier, `impl<T: ToString> From<T> for TokenType`.
`none` is a panic: for the one-character text `"` the branch taken is the
quoted one (`starts_with` and `ends_with` both see the same quote), and
after `s.remove(0)` the call `s.remove(s.len() - 1)` aborts on the empty
string (length underflow / out-of-bounds removal). -/
def fromText (s : String) : Option TokenType :=
  match parseIsize s with
  | some i => some (.Recognizable (.Integer i))
  | none =>
    if isF64 s then some (.Recognizable (.Floating s))
    else if isQuoted s then
      if s.length = 1 then none
      else some (.Recognizable (.Str (stripQuotes s)))
    else if s = "nil" then some (.Recognizable .Nil)
    else some (.Ident s)

/-! ## The tokenizer (`fn tokenize`) -/
/-- Mutable state of the tokenizer loop: the buffer being assembled, the
recorded start position of the pending token, the in-string flag, and the
tokens accumulated so far. -/
structure TokSt where
  buf : List Char
  tokenCol : Nat
  tokenLine : Nat
  inString : Bool
  acc : List Token
deriving DecidableEq, Repr

/-- Rust `char_indices`: pairs each character with its byte offset. -/
def charIndices (i : Nat) : List Char → List (Nat × Char)
  | [] => []
  | c :: rest => (i, c) :: charIndices (i + c.utf8Size) rest

/-- Whitespace as used by `str::trim` / `char::is_whitespace`
(ASCII fragment; the claims only exercise spaces). -/
def isWS (c : Char) : Bool :=
  c = ' ' || c = '\t' || c = '\n' || c = '\r'

/-- Rust `str::trim`: strip leading and trailing whitespace. -/
def rustTrim (l : List Char) : List Char :=
  ((l.dropWhile isWS).reverse.dropWhile isWS).reverse

/-- Strip one trailing carriage return (for a line produced by a `\n`
split, as `str::lines` does). -/
def stripCR (l : List Char) : List Char :=
  match l.getLast? with
  | some '\r' => l.dropLast
  | _ => l

/-- Worker for `str::lines`: `cur` holds the current line reversed. -/
def rustLinesGo (cur : List Char) : List Char → List (List Char)
  | [] => if cur.isEmpty then [] else [cur.reverse]
  | '\n' :: rest => stripCR cur.reverse :: rustLinesGo [] rest
  | c :: rest => rustLinesGo (c :: cur) rest

/-- Rust `str::lines`: split at `\n` (also eating a preceding `\r`); a
final line terminator is optional and a trailing `\r` of the final
unterminated line is kept. -/
def rustLines (s : String) : List (List Char) :=
  rustLinesGo [] s.data

/-- One iteration of the tokenizer's inner loop: the
`match (character, in_string)` of `fn tokenize`.  `none` propagates a
classifier panic (`token_buf.into()`). -/
def tokStep (name : String) (lineNo : Nat) (st : TokSt) (colNo : Nat) (c : Char) :
    Option TokSt :=
  match c, st.inString with
  | '"', true =>
    -- close quote: push it, classify the whole buffer, leave string mode
    (fromText (String.mk (st.buf ++ ['"']))).map fun dat =>
      { buf := [],
        tokenCol := colNo + 1,
        tokenLine := lineNo,
        inString := false,
        acc := st.acc ++
          [{ loc := { filename := name, line := st.tokenLine, col := st.tokenCol },
             dat := dat }] }
  | _, true => some { st with buf := st.buf ++ [c] }
  | '"', false =>
    some { st with buf := st.buf ++ [c], inString := true,
                   tokenCol := colNo, tokenLine := lineNo }
  | ' ', false =>
    if (rustTrim st.buf).isEmpty then some st
    else
      (fromText (String.mk st.buf)).map fun dat =>
        { buf := [],
          tokenCol := colNo + 1,
          tokenLine := lineNo,
          inString := false,
          acc := st.acc ++
            [{ loc := { filename := name, line := st.tokenLine, col := st.tokenCol },
               dat := dat }] }
  | '(', false =>
    -- emits OpenParens without flushing or clearing the pending buffer
    some { st with
           acc := st.acc ++
             [{ loc := { filename := name, line := st.tokenLine, col := st.tokenCol },
                dat := .OpenParens }],
           tokenCol := colNo + 1,
           tokenLine := lineNo }
  | ')', false =>
    if (rustTrim st.buf).isEmpty then
      some { st with
             acc := st.acc ++
               [{ loc := { filename := name, line := st.tokenLine, col := st.tokenCol },
                  dat := .CloseParens }],
             tokenCol := colNo + 1,
             tokenLine := lineNo }
    else
      (fromText (String.mk st.buf)).map fun dat =>
        { buf := [],
          tokenCol := colNo + 1,
          tokenLine := lineNo,
          inString := false,
          acc := st.acc ++
            [{ loc := { filename := name, line := st.tokenLine, col := st.tokenCol },
               dat := dat },
             { loc := { filename := name, line := lineNo, col := colNo },
               dat := .CloseParens }] }
  | _, false => some { st with buf := st.buf ++ [c] }

/-- Fold `tokStep` over one trimmed line. -/
def tokLine (name : String) (lineNo : Nat) (st : TokSt) :
    List (Nat × Char) → Option TokSt
  | [] => some st
  | (colNo, c) :: rest =>
    (tokStep name lineNo st colNo c).bind fun st' =>
      tokLine name lineNo st' rest

/-- Fold over the (enumerated) lines. -/
def tokLinesGo (name : String) (lineNo : Nat) (st : TokSt) :
    List (List Char) → Option TokSt
  | [] => some st
  | l :: rest =>
    (tokLine name lineNo st (charIndices 0 (rustTrim l))).bind fun st' =>
      tokLinesGo name (lineNo + 1) st' rest

/-- Embedding of `fn tokenize`.  The Rust signature is
`Result<Vec<Token>, String>` but no path returns `Err`; the `Option` here
models only the (unreachable through this function) classifier panic.
A buffer still pending when the input ends is dropped, as in the source. -/
def tokenize (input name : String) : Option (List Token) :=
  (tokLinesGo name 0
      { buf := [], tokenCol := 0, tokenLine := 0, inString := false, acc := [] }
      (rustLines input)).map TokSt.acc

/-! ## State, results, and the heap -/
/-- The mutable world: the heap of `Var` cells, the log of writes to the
statements' `res : RefCell<Option<Var>>` slots (first entry for an id is
its current content), the id counter for those slots, and the lines
printed so far. -/
structure St where
  cells : List LispType
  caches : List (Nat × Option Nat)
  nextCache : Nat
  output : List String
deriving DecidableEq, Repr

/-- `Var::new`: lift a value into a fresh cell, returning its address. -/
def allocCell (v : LispType) (s : St) : Nat × St :=
  (s.cells.length, { s with cells := s.cells ++ [v] })

/-- Read a cell (`Var::get`); `none` is an out-of-bounds address, which
cannot occur for addresses produced by this program. -/
def getCell (s : St) (a : Nat) : Option LispType :=
  s.cells.get? a

/-- Mutate a cell in place (`Var::get_mut`). -/
def setCell (a : Nat) (v : LispType) (s : St) : St :=
  { s with cells := s.cells.set a v }

/-- `println!`: append one line of output. -/
def pushOut (line : String) (s : St) : St :=
  { s with output := s.output ++ [line] }

/-- `RefCell::new(None)` for a new statement's `res` slot. -/
def allocCache (s : St) : Nat × St :=
  (s.nextCache,
   { s with caches := (s.nextCache, none) :: s.caches, nextCache := s.nextCache + 1 })

/-- `*self.res.borrow_mut() = Some(s.new_ref())`. -/
def setCache (id : Nat) (a : Nat) (s : St) : St :=
  { s with caches := (id, some a) :: s.caches }

/-- Current content of a `res` slot (used only in specifications: the
program itself never reads these slots). -/
def lookupCache (s : St) (id : Nat) : Option (Option Nat) :=
  (s.caches.find? (fun p => p.1 == id)).map (fun p => p.2)

/-- What an evaluation step hands back: a cell address (for `resolve` and
`call`) or a piece of formatted text (for the `Display` impls). -/
inductive Out where
  | addr (a : Nat)
  | text (t : String)
deriving DecidableEq, Repr

/-- Outcome of a step.  `ok`/`err` mirror `Result` and carry the state
(side effects before an error persist); `panic` is a Rust abort;
`timeout` is the out-of-fuel artifact of the embedding. -/
inductive Res where
  | ok (o : Out) (s : St)
  | err (e : String) (s : St)
  | panic (m : String)
  | timeout
deriving DecidableEq, Repr

/-- Sequence a step with a continuation, propagating the `?` operator's
error path as well as panics. -/
def Res.bind (r : Res) (f : Out → St → Res) : Res :=
  match r with
  | .ok o s => f o s
  | .err e s => .err e s
  | .panic m => .panic m
  | .timeout => .timeout

/-! ## The evaluator

`Statement::resolve`, `IntrinsicOp::call`, `Var::resolve` and the
`Display` impls are mutually recursive through the heap, so they are one
function over a request type, structurally recursive on fuel. -/
/-- Requests: which of the mutually recursive source functions to run. -/
inductive Req where
  /-- `Statement::resolve` -/
  | stmt (st : Stmt)
  /-- `IntrinsicOp::call` (entry: the arity diagnostics) -/
  | intr (op : IntrinsicOp) (args : List Nat) (loc : Location)
  /-- `IntrinsicOp::call` after the diagnostics -/
  | intrGo (op : IntrinsicOp) (args : List Nat) (loc : Location)
  /-- `Var::resolve` -/
  | var (a : Nat)
  /-- the `for a in args` loop of `Add` -/
  | addLoop (args : List Nat) (sum : Int)
  /-- the fold loop of `Multiply` -/
  | mulLoop (args : List Nat) (product : Int)
  /-- the fold loop of `Subtract` -/
  | subLoop (args : List Nat) (sum : Int)
  /-- `Display for LispType` -/
  | disp (v : LispType)
  /-- `Display for Var` -/
  | dispVar (a : Nat)
  /-- the item loop of the `List` display arm -/
  | dispList (cells : List Nat) (acc : String)
deriving DecidableEq, Repr

/-- The signed 64-bit range of `isize`. -/
def inIsize (x : Int) : Bool :=
  decide (-9223372036854775808 ≤ x ∧ x ≤ 9223372036854775807)

/-- Debug-profile `+` on `isize`: aborts on overflow. -/
def checkedAdd (a b : Int) : Option Int :=
  if inIsize (a + b) then some (a + b) else none

/-- Debug-profile `*` on `isize`. -/
def checkedMul (a b : Int) : Option Int :=
  if inIsize (a * b) then some (a * b) else none

/-- Debug-profile `-` on `isize`. -/
def checkedSub (a b : Int) : Option Int :=
  if inIsize (a - b) then some (a - b) else none

/-- Whether `IntrinsicOp::call` prints its low-arity diagnostic. -/
def warnCond (op : IntrinsicOp) (args : List Nat) : Bool :=
  match op with
  | .Print => false
  | _ => args.length < 2

/-- The diagnostic line printed by `Add`/`Subtract`/`Multiply`. -/
def warnMsg (op : IntrinsicOp) (loc : Location) : String :=
  locString loc ++
    (match op with
     | .Add => " - Addition requires at least two arguments!"
     | .Multiply => " - Multiplication requires at least two arguments!"
     | .Subtract => " - Subtraction requires at least two arguments!"
     | .Print => "")

/-- State after the (possible) arity diagnostic of `IntrinsicOp::call`. -/
def warnState (op : IntrinsicOp) (args : List Nat) (loc : Location) (s : St) : St :=
  if warnCond op args then pushOut (warnMsg op loc) s else s

/-- The evaluator.  Each equation carries the source it embeds. -/
def eval : Nat → Req → St → Res
  | 0, _, _ => .timeout
  -- Statement::resolve: `self.op.get().unwrap_func().call(&self.args, &self.loc)`,
  -- and on Ok the write-only cache update `*self.res.borrow_mut() = Some(s.new_ref())`.
  | fuel + 1, .stmt st, s =>
    match getCell s st.op with
    | some (.Func f) =>
      match eval fuel (.intr f st.args st.loc) s with
      | .ok (.addr a) s₁ => .ok (.addr a) (setCache st.res a s₁)
      | .ok (.text _) _ => .panic "model invariant: call returned text"
      | r => r
    | some _ => .panic "Expected to be LispType::Func!"
    | none => .panic "index out of bounds"
  -- IntrinsicOp::call, the `if args.len() < 2 { println!(...) }` headers.
  | fuel + 1, .intr op args loc, s =>
    eval fuel (.intrGo op args loc) (warnState op args loc s)
  -- Add: `let mut sum = 0; for a in args { ... } Ok(Var::new(sum))`.
  | fuel + 1, .intrGo .Add args _, s =>
    eval fuel (.addLoop args 0) s
  -- Multiply: `let t = args.get(0).unwrap();` then the seed check and fold.
  | fuel + 1, .intrGo .Multiply args _, s =>
    match args.get? 0 with
    | none => .panic "called Option::unwrap() on a None value"
    | some a0 =>
      (eval fuel (.var a0) s).bind fun o s₁ =>
        match o with
        | .addr r =>
          match getCell s₁ r with
          | some (.Integer i) => eval fuel (.mulLoop (args.drop 1) i) s₁
          | some _ => .err "Cannot multiply with a non-integer type!" s₁
          | none => .panic "index out of bounds"
        | .text _ => .panic "model invariant: resolve returned text"
  -- Subtract: same shape as Multiply.
  | fuel + 1, .intrGo .Subtract args _, s =>
    match args.get? 0 with
    | none => .panic "called Option::unwrap() on a None value"
    | some a0 =>
      (eval fuel (.var a0) s).bind fun o s₁ =>
        match o with
        | .addr r =>
          match getCell s₁ r with
          | some (.Integer i) => eval fuel (.subLoop (args.drop 1) i) s₁
          | some _ => .err "Cannot subtract from a non-integer!" s₁
          | none => .panic "index out of bounds"
        | .text _ => .panic "model invariant: resolve returned text"
  -- Print: exactly one operand or a hard type error; then
  -- `println!("{}", args[0]); Ok(Var::new(0))`.
  | fuel + 1, .intrGo .Print args _, s =>
    if args.length ≠ 1 then .err "Print intrinsic requires only one argument!" s
    else
      match args.get? 0 with
      | none => .panic "index out of bounds"
      | some a =>
        (eval fuel (.dispVar a) s).bind fun o s₁ =>
          match o with
          | .text t =>
            let s₂ := pushOut t s₁
            let (r, s₃) := allocCell (.Integer 0) s₂
            .ok (.addr r) s₃
          | .addr _ => .panic "model invariant: display returned addr"
  -- Var::resolve.
  | fuel + 1, .var a, s =>
    match getCell s a with
    | some (.Statement st) => eval fuel (.stmt st) s
    | some _ => .ok (.addr a) s
    | none => .panic "index out of bounds"
  -- Add's loop body: `if let LispType::Integer(i) = *a.resolve()?.get()
  -- { sum += i } else { return Err(TypeError::new(format!(..., a.get()))) }`.
  | _ + 1, .addLoop [] sum, s =>
    let (r, s₁) := allocCell (.Integer sum) s
    .ok (.addr r) s₁
  | fuel + 1, .addLoop (a :: rest) sum, s =>
    (eval fuel (.var a) s).bind fun o s₁ =>
      match o with
      | .addr r =>
        match getCell s₁ r with
        | some (.Integer i) =>
          match checkedAdd sum i with
          | some sum' => eval fuel (.addLoop rest sum') s₁
          | none => .panic "attempt to add with overflow"
        | some _ =>
          (eval fuel (.dispVar a) s₁).bind fun o₂ s₂ =>
            match o₂ with
            | .text d =>
              .err ("Cannot add a non-integer type to an integer: " ++ d ++ "!") s₂
            | .addr _ => .panic "model invariant: display returned addr"
        | none => .panic "index out of bounds"
      | .text _ => .panic "model invariant: resolve returned text"
  | _ + 1, .mulLoop [] product, s =>
    let (r, s₁) := allocCell (.Integer product) s
    .ok (.addr r) s₁
  | fuel + 1, .mulLoop (a :: rest) product, s =>
    (eval fuel (.var a) s).bind fun o s₁ =>
      match o with
      | .addr r =>
        match getCell s₁ r with
        | some (.Integer i) =>
          match checkedMul product i with
          | some p' => eval fuel (.mulLoop rest p') s₁
          | none => .panic "attempt to multiply with overflow"
        | some _ => .err "Cannot multiply a non-integer type with an integer!" s₁
        | none => .panic "index out of bounds"
      | .text _ => .panic "model invariant: resolve returned text"
  | _ + 1, .subLoop [] sum, s =>
    let (r, s₁) := allocCell (.Integer sum) s
    .ok (.addr r) s₁
  | fuel + 1, .subLoop (a :: rest) sum, s =>
    (eval fuel (.var a) s).bind fun o s₁ =>
      match o with
      | .addr r =>
        match getCell s₁ r with
        | some (.Integer i) =>
          match checkedSub sum i with
          | some s' => eval fuel (.subLoop rest s') s₁
          | none => .panic "attempt to subtract with overflow"
        | some _ => .err "Cannot subtract a non-integer type from an integer!" s₁
        | none => .panic "index out of bounds"
      | .text _ => .panic "model invariant: resolve returned text"
  -- Display for LispType.  The Statement arm runs `s.resolve()` and, on
  -- `Err(e)`, writes the error's text instead of propagating it.
  | fuel + 1, .disp v, s =>
    match v with
    | .Integer i => .ok (.text (toString i)) s
    | .Str str => .ok (.text str) s
    | .Func _ => .ok (.text "<Function>") s
    | .Statement st =>
      match eval fuel (.stmt st) s with
      | .ok (.addr a) s₁ => eval fuel (.dispVar a) s₁
      | .ok (.text _) _ => .panic "model invariant: resolve returned text"
      | .err e s₁ => .ok (.text e) s₁
      | r => r
    | .List l =>
      (eval fuel (.dispList l "") s).bind fun o s₁ =>
        match o with
        | .text t => .ok (.text ("(" ++ t ++ ")")) s₁
        | .addr _ => .panic "model invariant: display returned addr"
    | .Floating txt => .ok (.text txt) s
    | .Nil => .ok (.text "nil") s
  -- Display for Var: format the current content.
  | fuel + 1, .dispVar a, s =>
    match getCell s a with
    | some v => eval fuel (.disp v) s
    | none => .panic "index out of bounds"
  -- `for item in l { t = format!("{t} {item}") }`.
  | _ + 1, .dispList [] acc, s => .ok (.text acc) s
  | fuel + 1, .dispList (a :: rest) acc, s =>
    (eval fuel (.dispVar a) s).bind fun o s₁ =>
      match o with
      | .text t => eval fuel (.dispList rest (acc ++ " " ++ t)) s₁
      | .addr _ => .panic "model invariant: display returned addr"

/-! ## Environment and AST builder -/
/-- `Scope::default()`: allocate the four intrinsic cells (in array
order) and bind their names. -/
def defaultScope (s : St) : List (String × Nat) × St :=
  let (p, s) := allocCell (.Func .Print) s
  let (a, s) := allocCell (.Func .Add) s
  let (su, s) := allocCell (.Func .Subtract) s
  let (m, s) := allocCell (.Func .Multiply) s
  ([("print", p), ("+", a), ("-", su), ("*", m)], s)

/-- `idents.vars.get(&id)` on the fixed scope map. -/
def scopeGet (sc : List (String × Nat)) (id : String) : Option Nat :=
  (sc.find? (fun p => p.1 == id)).map (fun p => p.2)

/-- `impl Clone for LispType` from **main.rs**: `Func`, `Statement` *and*
`List` all abort (`none`); the scalar variants copy. -/
def cloneMain : LispType → Option LispType
  | .Integer i => some (.Integer i)
  | .Str s => some (.Str s)
  | .Func _ => none
  | .Statement _ => none
  | .List _ => none
  | .Floating t => some (.Floating t)
  | .Nil => some .Nil

/-- Requests of the AST builder: a whole `make_ast` call, or its index
loop (`for i in start_idx..=end_idx`) with the loop's mutable state. -/
inductive AstReq where
  | top (ts : List Token) (start : Location)
  | loop (ts : List Token) (idxs : List Nat) (stack : List Nat)
      (args : List Nat) (loc : Option Location)
deriving DecidableEq, Repr

/-- Outcome of the AST builder.  `flow` is the loop handing its final
mutable state back to the enclosing `make_ast`. -/
inductive AstRes where
  | built (st : Stmt) (s : St)
  | flow (stack : List Nat) (args : List Nat) (loc : Option Location) (s : St)
  | err (e : String) (s : St)
  | panic (m : String)
  | timeout
deriving DecidableEq, Repr

/-- Embedding of `fn make_ast` (and its scan loop), structurally
recursive on fuel like `eval`.  `ts[start_idx]` on an empty slice and
`loc.unwrap()` are the panics noted in the source. -/
def buildAst (scope : List (String × Nat)) : Nat → AstReq → St → AstRes
  | 0, _, _ => .timeout
  | fuel + 1, .top ts start, s =>
    match ts.get? 0 with
    | none => .panic "index out of bounds: the len is 0 but the index is 0"
    | some t0 =>
      let startIdx := match t0.dat with | .OpenParens => 1 | _ => 0
      let e0 := ts.length - 1
      match ts.get? e0 with
      | none => .panic "index out of bounds"
      | some tLast =>
        match
          (if tLast.dat = .CloseParens then
            (if e0 = 0 then none else some (e0 - 1))
          else some e0) with
        | none => .panic "attempt to subtract with overflow"
        | some endIdx =>
          match buildAst scope fuel
              (.loop ts (List.range' startIdx (endIdx + 1 - startIdx)) [] [] none) s with
          | .flow stack args loc s₁ =>
            match stack with
            | o :: _ =>
              match ts.get? o with
              | none => .panic "index out of bounds"
              | some t =>
                .err (locString t.loc ++ " - Unmatched opening parenthesis!") s₁
            | [] =>
              match args with
              | [] => .err (locString start ++ " - Empty statements are not allowed!") s₁
              | a0 :: rest =>
                match getCell s₁ a0 with
                | some (.Func _) =>
                  match loc with
                  | none => .panic "called Option::unwrap() on a None value"
                  | some l =>
                    let (id, s₂) := allocCache s₁
                    .built { args := rest, op := a0, res := id, loc := l } s₂
                | some _ =>
                  .err (locString start ++ " - Cannot make a raw list (Yet..)!") s₁
                | none => .panic "index out of bounds"
          | .built _ _ => .panic "model invariant: loop returned built"
          | r => r
  | _ + 1, .loop _ [] stack args loc, s => .flow stack args loc s
  | fuel + 1, .loop ts (i :: rest) stack args loc, s =>
    match ts.get? i with
    | none => .panic "index out of bounds"
    | some t =>
      match t.dat with
      | .OpenParens => buildAst scope fuel (.loop ts rest (i :: stack) args loc) s
      | .CloseParens =>
        match stack with
        | [] => .err (locString t.loc ++ " - Unmatched closing parenthesis!") s
        | o :: stack' =>
          if stack'.isEmpty then
            match ts.get? (o + 1) with
            | none => .panic "index out of bounds"
            | some t1 =>
              match buildAst scope fuel (.top ((ts.drop o).take (i + 1 - o)) t1.loc) s with
              | .built inner s₁ =>
                let (a, s₂) := allocCell (.Statement inner) s₁
                buildAst scope fuel (.loop ts rest stack' (args ++ [a]) loc) s₂
              | .err e s₁ => .err e s₁
              | .panic m => .panic m
              | .timeout => .timeout
              | .flow _ _ _ _ => .panic "model invariant: top returned flow"
          else buildAst scope fuel (.loop ts rest stack' args loc) s
      | .Recognizable n =>
        if stack.isEmpty then
          match cloneMain n with
          | some n' =>
            let (a, s₁) := allocCell n' s
            buildAst scope fuel (.loop ts rest stack (args ++ [a]) loc) s₁
          | none => .panic "Tried to clone a non-clonable LispType!"
        else buildAst scope fuel (.loop ts rest stack args loc) s
      | .Ident id =>
        match scopeGet scope id with
        | none => .err (locString t.loc ++ " - Unknown identifier `" ++ id ++ "`!") s
        | some cellA =>
          if stack.isEmpty then
            buildAst scope fuel (.loop ts rest stack (args ++ [cellA]) (some t.loc)) s
          else buildAst scope fuel (.loop ts rest stack args loc) s

/-- The empty world. -/
def initSt : St :=
  { cells := [], caches := [], nextCache := 0, output := [] }

/-- Embedding of `pub fn run_lisp`: tokenize, build against the default
scope with start location `{file, 0, 0}`, resolve. -/
def runLisp (fuel : Nat) (source file : String) : Res :=
  match tokenize source file with
  | none => .panic "attempt to subtract with overflow"
  | some toks =>
    match defaultScope initSt with
    | (scope, s0) =>
      match buildAst scope fuel (.top toks { filename := file, line := 0, col := 0 }) s0 with
      | .built st s => eval fuel (.stmt st) s
      | .err e s => .err e s
      | .panic m => .panic m
      | .timeout => .timeout
      | .flow _ _ _ _ => .panic "model invariant: top returned flow"

/-- The value of a successful run: the content of the returned cell. -/
def resVal (r : Res) : Option LispType :=
  match r with
  | .ok (.addr a) s => getCell s a
  | _ => none

/-- The printed lines of a finished (`ok` or `err`) run. -/
def resOut (r : Res) : Option (List String) :=
  match r with
  | .ok _ s => some s.output
  | .err _ s => some s.output
  | _ => none

/-- The displayed error of a failed run. -/
def resErr (r : Res) : Option String :=
  match r with
  | .err e _ => some e
  | _ => none

/-- Whether a run aborted with a panic. -/
def resIsPanic (r : Res) : Bool :=
  match r with
  | .panic _ => true
  | _ => false

/-! ## Heap invariants of evaluation

Evaluation never mutates an existing cell: `Var::new` appends, and the
only other writes go to the statements' `res` slots.  `CellsLE s t` says
`t`'s heap extends `s`'s. -/
/-- The heap of `t` is the heap of `s` possibly extended by fresh cells. -/
def CellsLE (s t : St) : Prop :=
  s.cells.length ≤ t.cells.length ∧
    ∀ a, a < s.cells.length → t.cells.get? a = s.cells.get? a

/-- An evaluation result whose final state (if any) only extends `s`. -/
def Stable (s : St) : Res → Prop
  | .ok _ t => CellsLE s t
  | .err _ t => CellsLE s t
  | .panic _ => True
  | .timeout => True

/-! ## Cache irrelevance

The `res` slots are write-only: no evaluation step reads them, so two
states that agree on everything except those slots evaluate alike.
`StEq` is agreement up to the cache log; `ObsRel` relates two results
that agree on everything except the cache log. -/
/-- Two states that agree except possibly on the cache log. -/
def StEq (s₁ s₂ : St) : Prop :=
  s₁.cells = s₂.cells ∧ s₁.output = s₂.output ∧ s₁.nextCache = s₂.nextCache

/-- Two results that agree except possibly on the final cache log. -/
def ObsRel : Res → Res → Prop
  | .ok o₁ t₁, .ok o₂ t₂ => o₁ = o₂ ∧ StEq t₁ t₂
  | .err e₁ t₁, .err e₂ t₂ => e₁ = e₂ ∧ StEq t₁ t₂
  | .panic m₁, .panic m₂ => m₁ = m₂
  | .timeout, .timeout => True
  | _, _ => False

/-! ## Display never returns an error

The `Display` impl for `LispType` catches the error of resolving a
`Statement` and formats it instead of propagating, so no display request
can produce `Res.err` (it can still panic or run out of fuel). -/
/-- The result is not an error. -/
def NoErr (r : Res) : Prop := ∀ e t, r ≠ .err e t

/-! ## Characterizing the arithmetic loops

`resolveAllInts` is the specification-side reading of "every operand
resolves to an Integer": it resolves the operand cells in order, exactly
as the intrinsic loops do (same fuel accounting), and collects the
integers.  `foldOkBy f` says every partial fold result stays in the
`isize` range, so the debug-mode overflow checks pass. -/
/-- Resolve operand cells left to right, requiring each to yield an
`Integer`; `none` when one does not (or on error/panic/fuel). -/
def resolveAllInts : Nat → List Nat → St → Option (List Int × St)
  | 0, _, _ => none
  | _ + 1, [], s => some ([], s)
  | fuel + 1, a :: rest, s =>
    match eval fuel (.var a) s with
    | .ok (.addr r) s₁ =>
      match getCell s₁ r with
      | some (.Integer i) =>
        (resolveAllInts fuel rest s₁).map (fun p => (i :: p.1, p.2))
      | _ => none
    | _ => none

/-- Every partial left-fold of `f` over the list stays in `isize`. -/
def foldOkBy (f : Int → Int → Int) : Int → List Int → Bool
  | _, [] => true
  | acc, i :: rest => inIsize (f acc i) && foldOkBy f (f acc i) rest

/-- Specification-side description of an Add loop run that reaches an
operand resolving to a non-Integer (after integer operands whose running
sums stay in range) and whose display succeeds. -/
inductive AddFails : Nat → List Nat → Int → St → String → St → Prop where
  | head {fuel : Nat} {a : Nat} {rest : List Nat} {sum : Int} {s : St}
      {r : Nat} {s₁ : St} {v : LispType} {d : String} {s₂ : St} :
      eval fuel (.var a) s = .ok (.addr r) s₁ →
      getCell s₁ r = some v →
      (∀ i : Int, v ≠ .Integer i) →
      eval fuel (.dispVar a) s₁ = .ok (.text d) s₂ →
      AddFails (fuel + 1) (a :: rest) sum s
        ("Cannot add a non-integer type to an integer: " ++ d ++ "!") s₂
  | step {fuel : Nat} {a : Nat} {rest : List Nat} {sum : Int} {s : St}
      {r : Nat} {s₁ : St} {i : Int} {e : String} {s₂ : St} :
      eval fuel (.var a) s = .ok (.addr r) s₁ →
      getCell s₁ r = some (.Integer i) →
      inIsize (sum + i) = true →
      AddFails fuel rest (sum + i) s₁ e s₂ →
      AddFails (fuel + 1) (a :: rest) sum s e s₂

/-! ## The newer `LispType` of types.rs and its `Clone` impl

`src/types.rs` is a newer revision of the value type (its `ast` and
`callable` sibling modules are not in the sources).  It adds a `Var`
variant and, unlike main.rs, makes `List` duplication non-fatal by
mapping `Var::maybe_clone` over the contained cells. -/
/-- Modelled from the spec: `Var::maybe_clone` lives in the missing
`crate::ast` module; per the spec's invariant "List duplication
duplicates the cell aliases it contains, not their referents", cloning a
cell handle yields an alias — the same cell address. -/
def maybeCloneVar (a : Nat) : Nat := a

/-- `enum LispType` as declared in types.rs (with the extra `Var`
variant). -/
inductive LispTypeT where
  | Integer (i : Int)
  | Str (s : String)
  | Func (f : IntrinsicOp)
  | Statement (st : Stmt)
  | List (cells : List Nat)
  | Floating (text : String)
  | Nil
  | Var (v : Nat)
deriving DecidableEq, Repr

/-- `impl Clone for LispType` from **types.rs**: `Func` and `Statement`
abort; `List` clones by mapping `Var::maybe_clone` over its cells. -/
def cloneTypes : LispTypeT → Option LispTypeT
  | .Integer i => some (.Integer i)
  | .Str s => some (.Str s)
  | .Func _ => none
  | .Statement _ => none
  | .List l => some (.List (l.map maybeCloneVar))
  | .Floating t => some (.Floating t)
  | .Nil => some .Nil
  | .Var v => some (.Var (maybeCloneVar v))

/-! ## Concrete fixtures used by the claim theorems -/
/-- The scope map `Scope::default()` constructs (names bound to cell
addresses 0–3 in array order). -/
def scope0 : List (String × Nat) :=
  [("print", 0), ("+", 1), ("-", 2), ("*", 3)]

/-- The world after `Scope::default()`: the four intrinsic cells. -/
def st0 : St :=
  { cells := [.Func .Print, .Func .Add, .Func .Subtract, .Func .Multiply],
    caches := [], nextCache := 0, output := [] }

/-- Two cells holding the extreme `isize` operands of the overflow
counterexample. -/
def ovSt : St :=
  { cells := [.Integer 9223372036854775807, .Integer 1],
    caches := [], nextCache := 0, output := [] }

/-- The call node `make_ast` produces for the source `(print 1)` (cells
0–3 are the intrinsics, cell 4 the literal; `res` slot id 0). -/
def pNode : Stmt :=
  { args := [4], op := 0, res := 0, loc := { filename := "f", line := 0, col := 1 } }

/-- The world right after building `(print 1)`. -/
def pSt0 : St :=
  { cells := [.Func .Print, .Func .Add, .Func .Subtract, .Func .Multiply,
              .Integer 1],
    caches := [(0, none)], nextCache := 1, output := [] }

/-- The world after resolving `pNode` once. -/
def pSt1 : St :=
  { cells := [.Func .Print, .Func .Add, .Func .Subtract, .Func .Multiply,
              .Integer 1, .Integer 0],
    caches := [(0, some 5), (0, none)], nextCache := 1, output := ["1"] }

/-- The world after resolving `pNode` twice. -/
def pSt2 : St :=
  { cells := [.Func .Print, .Func .Add, .Func .Subtract, .Func .Multiply,
              .Integer 1, .Integer 0, .Integer 0],
    caches := [(0, some 6), (0, some 5), (0, none)], nextCache := 1,
    output := ["1", "1"] }

/-- An Add node over the operands `1` and `"a"`, as built for the inner
call of `(print (+ 1 "a"))`. -/
def aNode : Stmt :=
  { args := [4, 5], op := 1, res := 0, loc := { filename := "f", line := 0, col := 1 } }

/-- The world for `aNode`: intrinsics plus the two literal cells. -/
def aSt : St :=
  { cells := [.Func .Print, .Func .Add, .Func .Subtract, .Func .Multiply,
              .Integer 1, .Str "a"],
    caches := [(0, none)], nextCache := 1, output := [] }

@[simp] theorem Res.bind_ok (o : Out) (s : St) (f : Out → St → Res) :
    (Res.ok o s).bind f = f o s := rfl

@[simp] theorem Res.bind_err (e : String) (s : St) (f : Out → St → Res) :
    (Res.err e s).bind f = .err e s := rfl

@[simp] theorem Res.bind_panic (m : String) (f : Out → St → Res) :
    (Res.panic m).bind f = .panic m := rfl

@[simp] theorem Res.bind_timeout (f : Out → St → Res) :
    Res.timeout.bind f = .timeout := rfl

theorem cellsLE_refl (s : St) : CellsLE s s := ⟨le_refl _, fun _ _ => Eq.refl _⟩

theorem CellsLE.trans {s t u : St} (h₁ : CellsLE s t) (h₂ : CellsLE t u) :
    CellsLE s u := by
  refine ⟨le_trans h₁.1 h₂.1, fun a ha => ?_⟩
  rw [h₂.2 a (lt_of_lt_of_le ha h₁.1), h₁.2 a ha]

theorem CellsLE.pushOut (line : String) (s : St) : CellsLE s (pushOut line s) :=
  ⟨le_refl _, fun _ _ => rfl⟩

theorem CellsLE.allocCell (v : LispType) (s : St) : CellsLE s (allocCell v s).2 := by
  refine ⟨by simp [Sul.allocCell], fun a ha => ?_⟩
  simp only [Sul.allocCell]
  exact List.get?_append ha

theorem CellsLE.setCache (id a : Nat) (s : St) : CellsLE s (setCache id a s) :=
  ⟨le_refl _, fun _ _ => rfl⟩

theorem CellsLE.warnState (op : IntrinsicOp) (args : List Nat) (loc : Location)
    (s : St) : CellsLE s (warnState op args loc s) := by
  unfold Sul.warnState
  split
  · exact CellsLE.pushOut _ _
  · exact cellsLE_refl s

/-- A result stable over an extension of `s` is stable over `s`. -/
theorem Stable.mono {s t : St} {r : Res} (h : CellsLE s t) (hr : Stable t r) :
    Stable s r := by
  cases r with
  | ok o u => exact CellsLE.trans h hr
  | err e u => exact CellsLE.trans h hr
  | panic m => trivial
  | timeout => trivial

theorem stable_bind {s : St} {r : Res} {f : Out → St → Res}
    (h : Stable s r) (hf : ∀ o t, Stable t (f o t)) : Stable s (r.bind f) := by
  cases r with
  | ok o t => exact Stable.mono h (hf o t)
  | err e t => exact h
  | panic m => trivial
  | timeout => trivial

/-- Evaluation only appends to the heap: every cell that existed before a
step keeps its content (only the write-only `res` slots and the output
change, plus freshly allocated cells). -/
theorem evalStable : ∀ (fuel : Nat) (req : Req) (s : St), Stable s (eval fuel req s) := by
  intro fuel
  induction fuel with
  | zero => intro req s; trivial
  | succ fuel ih =>
    intro req s
    cases req with
    | stmt st =>
      simp only [eval]
      cases hop : getCell s st.op with
      | none => trivial
      | some v =>
        cases v <;> try trivial
        case Func f =>
          dsimp only
          have h := ih (.intr f st.args st.loc) s
          cases hm : eval fuel (.intr f st.args st.loc) s with
          | ok o t =>
            rw [hm] at h
            cases o with
            | addr a => exact CellsLE.trans h (CellsLE.setCache _ _ _)
            | text t2 => exact trivial
          | err e t => rw [hm] at h; exact h
          | panic m => exact trivial
          | timeout => exact trivial
    | intr op args loc =>
      simp only [eval]
      exact Stable.mono (CellsLE.warnState op args loc s) (ih _ _)
    | intrGo op args loc =>
      cases op with
      | Add => simp only [eval]; exact ih _ _
      | Multiply =>
        simp only [eval]
        split
        · trivial
        · refine stable_bind (ih _ _) (fun o t => ?_)
          cases o with
          | addr r =>
            dsimp only
            split
            · exact ih _ _
            · exact cellsLE_refl t
            · trivial
          | text t' => trivial
      | Subtract =>
        simp only [eval]
        split
        · trivial
        · refine stable_bind (ih _ _) (fun o t => ?_)
          cases o with
          | addr r =>
            dsimp only
            split
            · exact ih _ _
            · exact cellsLE_refl t
            · trivial
          | text t' => trivial
      | Print =>
        simp only [eval]
        split
        · exact cellsLE_refl s
        · split
          · trivial
          · refine stable_bind (ih _ _) (fun o t => ?_)
            cases o with
            | addr a => trivial
            | text t' =>
              exact CellsLE.trans (CellsLE.pushOut t' t)
                (CellsLE.allocCell (.Integer 0) (pushOut t' t))
    | var a =>
      simp only [eval]
      split
      · exact ih _ _
      · exact cellsLE_refl s
      · trivial
    | addLoop args sum =>
      cases args with
      | nil => simp only [eval]; exact CellsLE.allocCell _ _
      | cons a rest =>
        simp only [eval]
        refine stable_bind (ih _ _) (fun o t => ?_)
        cases o with
        | addr r =>
          dsimp only
          split
          · split
            · exact ih _ _
            · trivial
          · refine stable_bind (ih _ _) (fun o₂ t₂ => ?_)
            cases o₂ with
            | addr _ => trivial
            | text d => exact cellsLE_refl t₂
          · trivial
        | text t' => trivial
    | mulLoop args product =>
      cases args with
      | nil => simp only [eval]; exact CellsLE.allocCell _ _
      | cons a rest =>
        simp only [eval]
        refine stable_bind (ih _ _) (fun o t => ?_)
        cases o with
        | addr r =>
          dsimp only
          split
          · split
            · exact ih _ _
            · trivial
          · exact cellsLE_refl t
          · trivial
        | text t' => trivial
    | subLoop args sum =>
      cases args with
      | nil => simp only [eval]; exact CellsLE.allocCell _ _
      | cons a rest =>
        simp only [eval]
        refine stable_bind (ih _ _) (fun o t => ?_)
        cases o with
        | addr r =>
          dsimp only
          split
          · split
            · exact ih _ _
            · trivial
          · exact cellsLE_refl t
          · trivial
        | text t' => trivial
    | disp v =>
      cases v with
      | Statement st =>
        simp only [eval]
        have h := ih (.stmt st) s
        cases hm : eval fuel (.stmt st) s with
        | ok o t =>
          rw [hm] at h
          cases o with
          | addr a => exact Stable.mono h (ih _ _)
          | text t2 => exact trivial
        | err e t => rw [hm] at h; exact h
        | panic m => exact trivial
        | timeout => exact trivial
      | List l =>
        simp only [eval]
        refine stable_bind (ih _ _) (fun o t => ?_)
        cases o with
        | addr _ => trivial
        | text t' => exact cellsLE_refl t
      | Integer i => simp only [eval]; exact cellsLE_refl s
      | Str str => simp only [eval]; exact cellsLE_refl s
      | Func f => simp only [eval]; exact cellsLE_refl s
      | Floating txt => simp only [eval]; exact cellsLE_refl s
      | Nil => simp only [eval]; exact cellsLE_refl s
    | dispVar a =>
      simp only [eval]
      split
      · exact ih _ _
      · trivial
    | dispList cells acc =>
      cases cells with
      | nil => simp only [eval]; exact cellsLE_refl s
      | cons a rest =>
        simp only [eval]
        refine stable_bind (ih _ _) (fun o t => ?_)
        cases o with
        | addr _ => trivial
        | text t' => exact ih _ _

theorem stEq_refl (s : St) : StEq s s := ⟨Eq.refl _, Eq.refl _, Eq.refl _⟩

theorem StEq.cellEq {s₁ s₂ : St} (h : StEq s₁ s₂) (a : Nat) :
    getCell s₁ a = getCell s₂ a := by
  unfold getCell; rw [h.1]

theorem StEq.pushOutPair {s₁ s₂ : St} (h : StEq s₁ s₂) (line : String) :
    StEq (pushOut line s₁) (pushOut line s₂) :=
  ⟨h.1, by simp only [pushOut, h.2.1], h.2.2⟩

theorem StEq.setCachePair {s₁ s₂ : St} (h : StEq s₁ s₂) (id a : Nat) :
    StEq (setCache id a s₁) (setCache id a s₂) :=
  ⟨h.1, h.2.1, h.2.2⟩

theorem StEq.allocFst {s₁ s₂ : St} (h : StEq s₁ s₂) (v : LispType) :
    (allocCell v s₁).1 = (allocCell v s₂).1 := by
  simp only [allocCell, h.1]

theorem StEq.allocPair {s₁ s₂ : St} (h : StEq s₁ s₂) (v : LispType) :
    StEq (allocCell v s₁).2 (allocCell v s₂).2 :=
  ⟨by simp only [allocCell, h.1], by simp only [allocCell, h.2.1], h.2.2⟩

theorem StEq.warnStatePair {s₁ s₂ : St} (h : StEq s₁ s₂)
    (op : IntrinsicOp) (args : List Nat) (loc : Location) :
    StEq (warnState op args loc s₁) (warnState op args loc s₂) := by
  unfold warnState
  by_cases hc : warnCond op args = true
  · rw [if_pos hc, if_pos hc]; exact h.pushOutPair _
  · rw [if_neg hc, if_neg hc]; exact h

theorem ObsRel.bindCong {r₁ r₂ : Res} {f₁ f₂ : Out → St → Res}
    (h : ObsRel r₁ r₂)
    (hf : ∀ o t₁ t₂, StEq t₁ t₂ → ObsRel (f₁ o t₁) (f₂ o t₂)) :
    ObsRel (r₁.bind f₁) (r₂.bind f₂) := by
  cases r₁ <;> cases r₂ <;> try exact h.elim
  case ok.ok o₁ t₁ o₂ t₂ =>
    obtain ⟨ho, hst⟩ := h
    cases ho
    exact hf o₁ t₁ t₂ hst
  case err.err e₁ t₁ e₂ t₂ => exact h
  case panic.panic m₁ m₂ => exact h
  case timeout.timeout => exact h

/-- No evaluation step reads the `res` slots: states agreeing up to the
cache log produce results agreeing up to the cache log. -/
theorem evalObs : ∀ (fuel : Nat) (req : Req) (s₁ s₂ : St), StEq s₁ s₂ →
    ObsRel (eval fuel req s₁) (eval fuel req s₂) := by
  intro fuel
  induction fuel with
  | zero => intro req s₁ s₂ _; exact trivial
  | succ fuel ih =>
    intro req s₁ s₂ hst
    cases req with
    | stmt st =>
      simp only [eval]
      rw [← hst.cellEq st.op]
      cases hg : getCell s₁ st.op with
      | none => exact rfl
      | some v =>
        cases v <;> try exact rfl
        case Func f =>
          dsimp only
          have h := ih (.intr f st.args st.loc) s₁ s₂ hst
          cases hm₁ : eval fuel (.intr f st.args st.loc) s₁ <;>
            cases hm₂ : eval fuel (.intr f st.args st.loc) s₂ <;>
            rw [hm₁, hm₂] at h <;> try exact h.elim
          case ok.ok o₁ t₁ o₂ t₂ =>
            obtain ⟨ho, htt⟩ := h
            cases ho
            cases o₁ with
            | addr a => exact ⟨rfl, htt.setCachePair st.res a⟩
            | text t => exact rfl
          case err.err e₁ t₁ e₂ t₂ => exact h
          case panic.panic m₁ m₂ => exact h
          case timeout.timeout => exact trivial
    | intr op args loc =>
      simp only [eval]
      exact ih _ _ _ (hst.warnStatePair op args loc)
    | intrGo op args loc =>
      cases op with
      | Add => simp only [eval]; exact ih _ _ _ hst
      | Multiply =>
        simp only [eval]
        cases h0 : args.get? 0 with
        | none => exact rfl
        | some a0 =>
          refine ObsRel.bindCong (ih _ _ _ hst) (fun o t₁ t₂ htt => ?_)
          cases o with
          | text t => exact rfl
          | addr r =>
            dsimp only
            rw [← htt.cellEq r]
            cases hg : getCell t₁ r with
            | none => exact rfl
            | some v =>
              cases v <;> try exact ⟨rfl, htt⟩
              case Integer i => exact ih _ _ _ htt
      | Subtract =>
        simp only [eval]
        cases h0 : args.get? 0 with
        | none => exact rfl
        | some a0 =>
          refine ObsRel.bindCong (ih _ _ _ hst) (fun o t₁ t₂ htt => ?_)
          cases o with
          | text t => exact rfl
          | addr r =>
            dsimp only
            rw [← htt.cellEq r]
            cases hg : getCell t₁ r with
            | none => exact rfl
            | some v =>
              cases v <;> try exact ⟨rfl, htt⟩
              case Integer i => exact ih _ _ _ htt
      | Print =>
        simp only [eval]
        by_cases hl : args.length ≠ 1
        · rw [if_pos hl, if_pos hl]; exact ⟨rfl, hst⟩
        · rw [if_neg hl, if_neg hl]
          cases h0 : args.get? 0 with
          | none => exact rfl
          | some a =>
            refine ObsRel.bindCong (ih _ _ _ hst) (fun o t₁ t₂ htt => ?_)
            cases o with
            | addr r => exact rfl
            | text t =>
              have hp := htt.pushOutPair t
              exact ⟨congrArg Out.addr (hp.allocFst (.Integer 0)),
                hp.allocPair (.Integer 0)⟩
    | var a =>
      simp only [eval]
      rw [← hst.cellEq a]
      cases hg : getCell s₁ a with
      | none => exact rfl
      | some v =>
        cases v <;> try exact ⟨rfl, hst⟩
        case Statement st => exact ih _ _ _ hst
    | addLoop args sum =>
      cases args with
      | nil =>
        simp only [eval]
        exact ⟨congrArg Out.addr (hst.allocFst _), hst.allocPair _⟩
      | cons a rest =>
        simp only [eval]
        refine ObsRel.bindCong (ih _ _ _ hst) (fun o t₁ t₂ htt => ?_)
        cases o with
        | text t => exact rfl
        | addr r =>
          dsimp only
          rw [← htt.cellEq r]
          cases hg : getCell t₁ r with
          | none => exact rfl
          | some v =>
            cases v
            case Integer i =>
              dsimp only
              cases hc : checkedAdd sum i with
              | none => exact rfl
              | some sum2 => exact ih _ _ _ htt
            all_goals
              dsimp only
              refine ObsRel.bindCong (ih _ _ _ htt) (fun o₂ u₁ u₂ huu => ?_)
              cases o₂ with
              | addr a2 => exact rfl
              | text d => exact ⟨rfl, huu⟩
    | mulLoop args product =>
      cases args with
      | nil =>
        simp only [eval]
        exact ⟨congrArg Out.addr (hst.allocFst _), hst.allocPair _⟩
      | cons a rest =>
        simp only [eval]
        refine ObsRel.bindCong (ih _ _ _ hst) (fun o t₁ t₂ htt => ?_)
        cases o with
        | text t => exact rfl
        | addr r =>
          dsimp only
          rw [← htt.cellEq r]
          cases hg : getCell t₁ r with
          | none => exact rfl
          | some v =>
            cases v <;> try exact ⟨rfl, htt⟩
            case Integer i =>
              dsimp only
              cases hc : checkedMul product i with
              | none => exact rfl
              | some p' => exact ih _ _ _ htt
    | subLoop args sum =>
      cases args with
      | nil =>
        simp only [eval]
        exact ⟨congrArg Out.addr (hst.allocFst _), hst.allocPair _⟩
      | cons a rest =>
        simp only [eval]
        refine ObsRel.bindCong (ih _ _ _ hst) (fun o t₁ t₂ htt => ?_)
        cases o with
        | text t => exact rfl
        | addr r =>
          dsimp only
          rw [← htt.cellEq r]
          cases hg : getCell t₁ r with
          | none => exact rfl
          | some v =>
            cases v <;> try exact ⟨rfl, htt⟩
            case Integer i =>
              dsimp only
              cases hc : checkedSub sum i with
              | none => exact rfl
              | some s' => exact ih _ _ _ htt
    | disp v =>
      cases v with
      | Statement st =>
        simp only [eval]
        have h := ih (.stmt st) s₁ s₂ hst
        cases hm₁ : eval fuel (.stmt st) s₁ <;>
          cases hm₂ : eval fuel (.stmt st) s₂ <;>
          rw [hm₁, hm₂] at h <;> try exact h.elim
        case ok.ok o₁ t₁ o₂ t₂ =>
          obtain ⟨ho, htt⟩ := h
          cases ho
          cases o₁ with
          | addr a => exact ih _ _ _ htt
          | text t => exact rfl
        case err.err e₁ t₁ e₂ t₂ =>
          obtain ⟨he, htt⟩ := h
          cases he
          exact ⟨rfl, htt⟩
        case panic.panic m₁ m₂ => exact h
        case timeout.timeout => exact trivial
      | List l =>
        simp only [eval]
        refine ObsRel.bindCong (ih _ _ _ hst) (fun o t₁ t₂ htt => ?_)
        cases o with
        | addr r => exact rfl
        | text t => exact ⟨rfl, htt⟩
      | Integer i => exact ⟨rfl, hst⟩
      | Str str => exact ⟨rfl, hst⟩
      | Func f => exact ⟨rfl, hst⟩
      | Floating txt => exact ⟨rfl, hst⟩
      | Nil => exact ⟨rfl, hst⟩
    | dispVar a =>
      simp only [eval]
      rw [← hst.cellEq a]
      cases hg : getCell s₁ a with
      | none => exact rfl
      | some v => exact ih _ _ _ hst
    | dispList cells acc =>
      cases cells with
      | nil => exact ⟨rfl, hst⟩
      | cons a rest =>
        simp only [eval]
        refine ObsRel.bindCong (ih _ _ _ hst) (fun o t₁ t₂ htt => ?_)
        cases o with
        | addr r => exact rfl
        | text t => exact ih _ _ _ htt

theorem NoErr.ok (o : Out) (s : St) : NoErr (.ok o s) :=
  fun _ _ h => Res.noConfusion h

theorem NoErr.panic (m : String) : NoErr (.panic m) :=
  fun _ _ h => Res.noConfusion h

theorem NoErr.timeout : NoErr .timeout :=
  fun _ _ h => Res.noConfusion h

theorem noErr_bind {r : Res} {f : Out → St → Res}
    (h : NoErr r) (hf : ∀ o t, NoErr (f o t)) : NoErr (r.bind f) := by
  cases r with
  | ok o t => exact hf o t
  | err e t => exact absurd rfl (h e t)
  | panic m => exact NoErr.panic m
  | timeout => exact NoErr.timeout

/-- No display request ever returns `Res.err`. -/
theorem dispNoErr : ∀ fuel : Nat,
    (∀ v s, NoErr (eval fuel (.disp v) s)) ∧
    (∀ a s, NoErr (eval fuel (.dispVar a) s)) ∧
    (∀ l acc s, NoErr (eval fuel (.dispList l acc) s)) := by
  intro fuel
  induction fuel with
  | zero => exact ⟨fun _ _ => NoErr.timeout, fun _ _ => NoErr.timeout,
      fun _ _ _ => NoErr.timeout⟩
  | succ fuel ih =>
    obtain ⟨ihd, ihv, ihl⟩ := ih
    refine ⟨fun v s => ?_, fun a s => ?_, fun l acc s => ?_⟩
    · cases v
      case Integer i => exact NoErr.ok _ _
      case Str str => exact NoErr.ok _ _
      case Func f => exact NoErr.ok _ _
      case Floating txt => exact NoErr.ok _ _
      case Nil => exact NoErr.ok _ _
      case Statement st =>
        simp only [eval]
        cases hm : eval fuel (.stmt st) s with
        | ok o t =>
          cases o with
          | addr a => exact ihv a t
          | text t2 => exact NoErr.panic _
        | err e t => exact NoErr.ok _ _
        | panic m => exact NoErr.panic _
        | timeout => exact NoErr.timeout
      case List l =>
        simp only [eval]
        refine noErr_bind (ihl l "" s) (fun o t => ?_)
        cases o with
        | addr a => exact NoErr.panic _
        | text t2 => exact NoErr.ok _ _
    · simp only [eval]
      cases hg : getCell s a with
      | none => exact NoErr.panic _
      | some v => exact ihd v s
    · cases l with
      | nil => exact NoErr.ok _ _
      | cons a rest =>
        simp only [eval]
        refine noErr_bind (ihv a s) (fun o t => ?_)
        cases o with
        | addr a2 => exact NoErr.panic _
        | text t2 => exact ihl rest _ t

/-- When every operand resolves to an Integer and no partial sum
overflows, the Add loop returns a fresh cell holding the fold. -/
theorem addLoopSound : ∀ (fuel : Nat) (args : List Nat) (s : St)
    (ints : List Int) (s₂ : St),
    resolveAllInts fuel args s = some (ints, s₂) →
    ∀ sum : Int, foldOkBy (· + ·) sum ints = true →
    eval fuel (.addLoop args sum) s =
      .ok (.addr s₂.cells.length)
        ((allocCell (.Integer (ints.foldl (· + ·) sum)) s₂).2) := by
  intro fuel
  induction fuel with
  | zero => intro args s ints s₂ h; exact absurd h (by simp [resolveAllInts])
  | succ fuel ih =>
    intro args s ints s₂ h sum hfold
    cases args with
    | nil =>
      simp only [resolveAllInts, Option.some.injEq, Prod.mk.injEq] at h
      obtain ⟨h1, h2⟩ := h
      subst h1; subst h2
      simp only [eval, List.foldl_nil, allocCell]
    | cons a rest =>
      simp only [resolveAllInts] at h
      cases hm : eval fuel (.var a) s <;> rw [hm] at h <;> try exact absurd h (by simp)
      case ok o s₁ =>
        cases o with
        | text t => exact absurd h (by simp)
        | addr r =>
          simp only at h
          cases hg : getCell s₁ r <;> rw [hg] at h
          case none => exact absurd h (by simp)
          case some v =>
            cases v with
            | Integer i =>
              simp only [Option.map_eq_some'] at h
              obtain ⟨p, hp, hpe⟩ := h
              injection hpe with hpi hps
              subst hpi
              subst hps
              simp only [eval, hm, Res.bind_ok, hg]
              simp only [foldOkBy, Bool.and_eq_true] at hfold
              obtain ⟨hin, hrest⟩ := hfold
              have hih := ih rest s₁ p.1 p.2 hp (sum + i) hrest
              simp [checkedAdd, hin, hih, List.foldl_cons]
            | Str s3 => exact absurd h (by simp)
            | Func f => exact absurd h (by simp)
            | Statement st => exact absurd h (by simp)
            | List l => exact absurd h (by simp)
            | Floating txt => exact absurd h (by simp)
            | Nil => exact absurd h (by simp)

/-- When the seed and every further operand resolve to Integers and no
partial product overflows, the Multiply loop returns the fold. -/
theorem mulLoopSound : ∀ (fuel : Nat) (args : List Nat) (s : St)
    (ints : List Int) (s₂ : St),
    resolveAllInts fuel args s = some (ints, s₂) →
    ∀ acc : Int, foldOkBy (· * ·) acc ints = true →
    eval fuel (.mulLoop args acc) s =
      .ok (.addr s₂.cells.length)
        ((allocCell (.Integer (ints.foldl (· * ·) acc)) s₂).2) := by
  intro fuel
  induction fuel with
  | zero => intro args s ints s₂ h; exact absurd h (by simp [resolveAllInts])
  | succ fuel ih =>
    intro args s ints s₂ h acc hfold
    cases args with
    | nil =>
      simp only [resolveAllInts, Option.some.injEq, Prod.mk.injEq] at h
      obtain ⟨h1, h2⟩ := h
      subst h1; subst h2
      simp only [eval, List.foldl_nil, allocCell]
    | cons a rest =>
      simp only [resolveAllInts] at h
      cases hm : eval fuel (.var a) s <;> rw [hm] at h <;> try exact absurd h (by simp)
      case ok o s₁ =>
        cases o with
        | text t => exact absurd h (by simp)
        | addr r =>
          simp only at h
          cases hg : getCell s₁ r <;> rw [hg] at h
          case none => exact absurd h (by simp)
          case some v =>
            cases v with
            | Integer i =>
              simp only [Option.map_eq_some'] at h
              obtain ⟨p, hp, hpe⟩ := h
              injection hpe with hpi hps
              subst hpi
              subst hps
              simp only [eval, hm, Res.bind_ok, hg]
              simp only [foldOkBy, Bool.and_eq_true] at hfold
              obtain ⟨hin, hrest⟩ := hfold
              have hih := ih rest s₁ p.1 p.2 hp (acc * i) hrest
              simp [checkedMul, hin, hih, List.foldl_cons]
            | Str s3 => exact absurd h (by simp)
            | Func f => exact absurd h (by simp)
            | Statement st => exact absurd h (by simp)
            | List l => exact absurd h (by simp)
            | Floating txt => exact absurd h (by simp)
            | Nil => exact absurd h (by simp)

/-- Subtract analogue of `mulLoopSound`. -/
theorem subLoopSound : ∀ (fuel : Nat) (args : List Nat) (s : St)
    (ints : List Int) (s₂ : St),
    resolveAllInts fuel args s = some (ints, s₂) →
    ∀ acc : Int, foldOkBy (· - ·) acc ints = true →
    eval fuel (.subLoop args acc) s =
      .ok (.addr s₂.cells.length)
        ((allocCell (.Integer (ints.foldl (· - ·) acc)) s₂).2) := by
  intro fuel
  induction fuel with
  | zero => intro args s ints s₂ h; exact absurd h (by simp [resolveAllInts])
  | succ fuel ih =>
    intro args s ints s₂ h acc hfold
    cases args with
    | nil =>
      simp only [resolveAllInts, Option.some.injEq, Prod.mk.injEq] at h
      obtain ⟨h1, h2⟩ := h
      subst h1; subst h2
      simp only [eval, List.foldl_nil, allocCell]
    | cons a rest =>
      simp only [resolveAllInts] at h
      cases hm : eval fuel (.var a) s <;> rw [hm] at h <;> try exact absurd h (by simp)
      case ok o s₁ =>
        cases o with
        | text t => exact absurd h (by simp)
        | addr r =>
          simp only at h
          cases hg : getCell s₁ r <;> rw [hg] at h
          case none => exact absurd h (by simp)
          case some v =>
            cases v with
            | Integer i =>
              simp only [Option.map_eq_some'] at h
              obtain ⟨p, hp, hpe⟩ := h
              injection hpe with hpi hps
              subst hpi
              subst hps
              simp only [eval, hm, Res.bind_ok, hg]
              simp only [foldOkBy, Bool.and_eq_true] at hfold
              obtain ⟨hin, hrest⟩ := hfold
              have hih := ih rest s₁ p.1 p.2 hp (acc - i) hrest
              simp [checkedSub, hin, hih, List.foldl_cons]
            | Str s3 => exact absurd h (by simp)
            | Func f => exact absurd h (by simp)
            | Statement st => exact absurd h (by simp)
            | List l => exact absurd h (by simp)
            | Floating txt => exact absurd h (by simp)
            | Nil => exact absurd h (by simp)

/-- An Add loop run reaching a non-Integer operand returns the type
error naming the offending value's display text. -/
theorem addLoopFails {fuel : Nat} {args : List Nat} {sum : Int} {s : St}
    {e : String} {s₂ : St} (h : AddFails fuel args sum s e s₂) :
    eval fuel (.addLoop args sum) s = .err e s₂ := by
  induction h with
  | head hv hg hne hd =>
    rename_i fuel a rest sum s r s₁ v d s₂
    simp only [eval, hv, Res.bind_ok, hg]
    cases v with
    | Integer i => exact absurd rfl (hne i)
    | Str s3 => simp [hd]
    | Func f => simp [hd]
    | Statement st => simp [hd]
    | List l => simp [hd]
    | Floating txt => simp [hd]
    | Nil => simp [hd]
  | step hv hg hin _ ih =>
    rename_i fuel a rest sum s r s₁ i e s₂ _
    simp only [eval, hv, Res.bind_ok, hg]
    simp [checkedAdd, hin, ih]

/-! ## Claim theorems -/
/-- Claim C5, counterexample: the claim promises that any text beginning
and ending with a double-quote classifies as `Str` with the quotes
stripped, but the one-character text `"` both begins and ends with the
quote and the classifier panics on it (`String::remove` on the emptied
string) instead of yielding `Str ""`; the quoted branch is indeed the one
reached (no integer or float parse, `isQuoted` holds). -/
theorem C5_counterexample :
    fromText "\"" = none ∧
    parseIsize "\"" = none ∧
    isF64 "\"" = false ∧
    isQuoted "\"" = true := by
  refine ⟨?_, ?_, ?_, ?_⟩ <;> decide

/-- Claim C5 (amended): the Literal Classifier applies exactly the
precedence signed-integer, then 64-bit float, then quote-delimited
string (with the two delimiting quotes stripped — except for the
one-character text `"`, on which it aborts), then the keyword `nil`,
then a bare identifier carrying the original text. -/
theorem C5_classifier_precedence : ∀ s : String,
    (∀ i : Int, parseIsize s = some i →
      fromText s = some (.Recognizable (.Integer i))) ∧
    (parseIsize s = none → isF64 s = true →
      fromText s = some (.Recognizable (.Floating s))) ∧
    (parseIsize s = none → isF64 s = false → isQuoted s = true →
      2 ≤ s.length → fromText s = some (.Recognizable (.Str (stripQuotes s)))) ∧
    (parseIsize s = none → isF64 s = false → isQuoted s = true →
      s.length = 1 → fromText s = none) ∧
    (parseIsize s = none → isF64 s = false → isQuoted s = false →
      s = "nil" → fromText s = some (.Recognizable .Nil)) ∧
    (parseIsize s = none → isF64 s = false → isQuoted s = false →
      s ≠ "nil" → fromText s = some (.Ident s)) := by
  intro s
  refine ⟨?_, ?_, ?_, ?_, ?_, ?_⟩
  · intro i hi; simp [fromText, hi]
  · intro h1 h2; simp [fromText, h1, h2]
  · intro h1 h2 h3 h4
    have hne : s.length ≠ 1 := by omega
    simp [fromText, h1, h2, h3, hne]
  · intro h1 h2 h3 h4; simp [fromText, h1, h2, h3, h4]
  · intro h1 h2 h3 h4; subst h4; decide
  · intro h1 h2 h3 h4; simp [fromText, h1, h2, h3, h4]

/-- Claim C6, counterexample: the claim says a token being accumulated
directly before an open-paren "is discarded and never appears in the
token sequence", but for the input `ab()` the pending text `ab` appears
as a token (emitted after the OpenParen, when the close-paren flushes the
untouched buffer). -/
theorem C6_counterexample :
    (tokenize "ab()" "f").map (List.map Token.dat) =
      some [.OpenParens, .Ident "ab", .CloseParens] := by
  decide

/-- Claim C6 (amended): on `(` outside a string the tokenizer emits an
OpenParen token immediately — at the recorded start position of the
pending buffer, which is the current position only when nothing is
pending — and it neither flushes nor clears the pending buffered text;
the pending text therefore merges into the next flushed token (as `x(y)`
tokenizing to `(`, `xy`, `)` shows) instead of being emitted before the
OpenParen. -/
theorem C6_openparen_no_flush :
    (∀ (name : String) (lineNo : Nat) (buf : List Char)
        (tc tl : Nat) (acc : List Token) (colNo : Nat),
      tokStep name lineNo
          { buf := buf, tokenCol := tc, tokenLine := tl,
            inString := false, acc := acc } colNo '(' =
        some { buf := buf, tokenCol := colNo + 1, tokenLine := lineNo,
               inString := false,
               acc := acc ++
                 [{ loc := { filename := name, line := tl, col := tc },
                    dat := .OpenParens }] }) ∧
    (tokenize "x(y)" "f").map (List.map Token.dat) =
      some [.OpenParens, .Ident "xy", .CloseParens] := by
  refine ⟨fun name lineNo buf tc tl acc colNo => ?_, by decide⟩
  rfl

/-- Claim C7, counterexample: the claim says duplicating a `List` value
is a defined, non-fatal operation, but main.rs's `Clone` impl panics on
the `List` arm (`none` in the embedding), exactly as it does for `Func`
and `Statement`. -/
theorem C7_counterexample : cloneMain (.List []) = none := by decide

/-- Claim C7 (amended): in main.rs's `Clone` impl, duplicating a `List`
is a fatal contract violation just like `Func` and `Statement`, while
the scalar variants copy; in types.rs's newer `Clone` impl, `List`
duplication is defined and non-fatal and produces a `List` of aliases of
the same Value Cells (addresses unchanged), so a mutation through a cell
of the original is visible through the corresponding cell of the
duplicate, and only `Func` and `Statement` duplication is fatal there. -/
theorem C7_clone_semantics :
    (∀ l, cloneMain (.List l) = none) ∧
    (∀ f, cloneMain (.Func f) = none) ∧
    (∀ st, cloneMain (.Statement st) = none) ∧
    (∀ i, cloneMain (.Integer i) = some (.Integer i)) ∧
    (∀ t, cloneMain (.Str t) = some (.Str t)) ∧
    (∀ t, cloneMain (.Floating t) = some (.Floating t)) ∧
    cloneMain .Nil = some .Nil ∧
    (∀ l, cloneTypes (.List l) = some (.List l)) ∧
    (∀ f, cloneTypes (.Func f) = none) ∧
    (∀ st, cloneTypes (.Statement st) = none) ∧
    (∀ (s : St) (a : Nat) (v : LispType), a < s.cells.length →
      getCell (setCell a v s) a = some v) := by
  refine ⟨fun l => rfl, fun f => rfl, fun st => rfl, fun i => rfl,
    fun t => rfl, fun t => rfl, rfl, fun l => ?_, fun f => rfl,
    fun st => rfl, fun s a v ha => ?_⟩
  · have hmap : ∀ l : List Nat, List.map maybeCloneVar l = l := by
      intro l
      induction l with
      | nil => rfl
      | cons a t iht => simp [maybeCloneVar, iht]
    simp [cloneTypes, hmap]
  · simp only [getCell, setCell]
    exact List.get?_set_eq_of_lt v ha

/-- Claim C8: a call of Add, Subtract or Multiply with fewer than two
operands prints the arity diagnostic and proceeds with the same loop it
would otherwise run (it does not return an error for the arity); with
zero operands Subtract and Multiply then panic unwrapping
`args.get(0)`, while Add completes and returns a fresh `Integer 0`. -/
theorem C8_arity_warnings :
    (∀ (fuel : Nat) (args : List Nat) (loc : Location) (s : St),
      args.length < 2 →
      eval (fuel + 1) (.intr .Add args loc) s =
        eval fuel (.intrGo .Add args loc) (pushOut (warnMsg .Add loc) s)) ∧
    (∀ (fuel : Nat) (args : List Nat) (loc : Location) (s : St),
      args.length < 2 →
      eval (fuel + 1) (.intr .Subtract args loc) s =
        eval fuel (.intrGo .Subtract args loc) (pushOut (warnMsg .Subtract loc) s)) ∧
    (∀ (fuel : Nat) (args : List Nat) (loc : Location) (s : St),
      args.length < 2 →
      eval (fuel + 1) (.intr .Multiply args loc) s =
        eval fuel (.intrGo .Multiply args loc) (pushOut (warnMsg .Multiply loc) s)) ∧
    (∀ (fuel : Nat) (loc : Location) (s : St),
      eval (fuel + 2) (.intr .Subtract [] loc) s =
        .panic "called Option::unwrap() on a None value") ∧
    (∀ (fuel : Nat) (loc : Location) (s : St),
      eval (fuel + 2) (.intr .Multiply [] loc) s =
        .panic "called Option::unwrap() on a None value") ∧
    (∀ (fuel : Nat) (loc : Location) (s : St),
      eval (fuel + 3) (.intr .Add [] loc) s =
        .ok (.addr (pushOut (warnMsg .Add loc) s).cells.length)
          ((allocCell (.Integer 0) (pushOut (warnMsg .Add loc) s)).2)) := by
  refine ⟨?_, ?_, ?_, ?_, ?_, ?_⟩
  · intro fuel args loc s h
    simp [eval, warnState, warnCond, h]
  · intro fuel args loc s h
    simp [eval, warnState, warnCond, h]
  · intro fuel args loc s h
    simp [eval, warnState, warnCond, h]
  · intro fuel loc s
    simp [eval, warnState, warnCond]
  · intro fuel loc s
    simp [eval, warnState, warnCond]
  · intro fuel loc s
    simp [eval, warnState, warnCond, allocCell]

/-- Claim C10: `make_ast` on an empty token sequence panics (indexing
`ts[0]`) rather than returning an error; empty and whitespace-only
sources tokenize to zero tokens, so `run` panics on them; the graceful
`EmptyStatement` error arises only when tokens exist but no operands are
collected, as for the source `()`. -/
theorem C10_empty_tokens_panic :
    (∀ (scope : List (String × Nat)) (fuel : Nat) (start : Location) (s : St),
      buildAst scope (fuel + 1) (.top [] start) s =
        .panic "index out of bounds: the len is 0 but the index is 0") ∧
    tokenize "" "f" = some [] ∧
    tokenize "   " "f" = some [] ∧
    runLisp 8 "" "f" = .panic "index out of bounds: the len is 0 but the index is 0" ∧
    runLisp 8 "   " "f" =
      .panic "index out of bounds: the len is 0 but the index is 0" ∧
    resErr (runLisp 50 "()" "f") = some "f:0:0 - Empty statements are not allowed!" ∧
    resErr (runLisp 50 "(+ 1 2)" "f") = none := by
  refine ⟨fun scope fuel start s => rfl, by decide, by decide, by decide,
    by decide, by decide, by decide⟩

/-- Claim C9: a Print call returns a hard type error exactly when the
operand count is not one — with one operand it can never return an error
(display failures are panics or exhaustion, never errors) — and with
exactly one operand whose display succeeds it prints that text and
returns a fresh `Integer 0`. -/
theorem C9_print_arity :
    (∀ (fuel : Nat) (args : List Nat) (loc : Location) (s : St),
      args.length ≠ 1 →
      eval (fuel + 2) (.intr .Print args loc) s =
        .err "Print intrinsic requires only one argument!" s) ∧
    (∀ (fuel : Nat) (a : Nat) (loc : Location) (s : St) (e : String) (t : St),
      eval fuel (.intr .Print [a] loc) s ≠ .err e t) ∧
    (∀ (fuel : Nat) (a : Nat) (loc : Location) (s : St) (d : String) (s₁ : St),
      eval fuel (.dispVar a) s = .ok (.text d) s₁ →
      eval (fuel + 2) (.intr .Print [a] loc) s =
        .ok (.addr (pushOut d s₁).cells.length)
          ((allocCell (.Integer 0) (pushOut d s₁)).2)) := by
  refine ⟨?_, ?_, ?_⟩
  · intro fuel args loc s h
    simp [eval, warnState, warnCond, h]
  · intro fuel a loc s e t
    match fuel with
    | 0 => exact fun h => Res.noConfusion h
    | 1 => exact fun h => Res.noConfusion h
    | (n + 2) =>
      have hne : NoErr ((eval n (.dispVar a) s).bind fun o s₁ =>
          match o with
          | .text d =>
            let s₂ := pushOut d s₁
            let (r, s₃) := allocCell (.Integer 0) s₂
            Res.ok (.addr r) s₃
          | .addr _ => .panic "model invariant: display returned addr") := by
        refine noErr_bind ((dispNoErr n).2.1 a s) (fun o u => ?_)
        cases o with
        | addr a2 => exact NoErr.panic _
        | text d => exact NoErr.ok _ _
      exact hne e t
  · intro fuel a loc s d s₁ h
    simp [eval, warnState, warnCond, h, allocCell]

/-- Claim C1, counterexample: with both operands resolving to Integers
(`9223372036854775807` and `1`), the Add call does not return the
arithmetic sum 2^63 — it aborts with a debug-mode overflow panic, both
at the intrinsic level and for the full `run` of
`(+ 9223372036854775807 1)` (in a release build it would return the
wrapped value, likewise not the arithmetic sum). -/
theorem C1_counterexample :
    resolveAllInts 9 [0, 1] ovSt = some ([9223372036854775807, 1], ovSt) ∧
    eval 11 (.intr .Add [0, 1] { filename := "f", line := 0, col := 0 }) ovSt =
      .panic "attempt to add with overflow" ∧
    runLisp 64 "(+ 9223372036854775807 1)" "f" =
      .panic "attempt to add with overflow" := by
  refine ⟨by decide, by decide, by decide⟩

/-- Claim C1 (amended): an Add call whose operands all resolve to
Integers returns a fresh Integer equal to their arithmetic sum provided
every partial sum stays within the signed 64-bit range (otherwise the
debug-profile addition aborts); an operand resolving to a non-Integer
(reached with in-range partial sums, its display succeeding) makes the
call fail with the type error naming that value; and
`run("(+ 34 35)")` and `run("(+ 34 (+ 34 1))")` return Integer 69. -/
theorem C1_add_behavior :
    (∀ (fuel : Nat) (args : List Nat) (loc : Location) (s : St)
        (ints : List Int) (s₂ : St),
      resolveAllInts fuel args (warnState .Add args loc s) = some (ints, s₂) →
      foldOkBy (· + ·) 0 ints = true →
      eval (fuel + 2) (.intr .Add args loc) s =
        .ok (.addr s₂.cells.length)
          ((allocCell (.Integer (ints.foldl (· + ·) 0)) s₂).2)) ∧
    (∀ (fuel : Nat) (args : List Nat) (loc : Location) (s : St)
        (e : String) (s₂ : St),
      AddFails fuel args 0 (warnState .Add args loc s) e s₂ →
      eval (fuel + 2) (.intr .Add args loc) s = .err e s₂) ∧
    resVal (runLisp 64 "(+ 34 35)" "f") = some (.Integer 69) ∧
    resVal (runLisp 64 "(+ 34 (+ 34 1))" "f") = some (.Integer 69) := by
  refine ⟨?_, ?_, by decide, by decide⟩
  · intro fuel args loc s ints s₂ h hfold
    exact addLoopSound fuel args (warnState .Add args loc s) ints s₂ h 0 hfold
  · intro fuel args loc s e s₂ h
    exact addLoopFails h

/-- Claim C2: Subtract resolves its first operand as the seed — a
non-Integer seed is the type error `Cannot subtract from a non-integer!`
— and folds the remaining operands by (64-bit, debug-checked)
subtraction from it; Multiply has the same shape folding
multiplicatively; `run("(- 10 3 2)")` returns Integer 5 and
`run("(* 3 4 5)")` returns Integer 60. -/
theorem C2_sub_mul_fold :
    (∀ (fuel : Nat) (a0 : Nat) (rest : List Nat) (loc : Location) (s : St)
        (r : Nat) (s₁ : St) (v : LispType),
      eval fuel (.var a0) (warnState .Subtract (a0 :: rest) loc s) =
        .ok (.addr r) s₁ →
      getCell s₁ r = some v → (∀ i : Int, v ≠ .Integer i) →
      eval (fuel + 2) (.intr .Subtract (a0 :: rest) loc) s =
        .err "Cannot subtract from a non-integer!" s₁) ∧
    (∀ (fuel : Nat) (a0 : Nat) (rest : List Nat) (loc : Location) (s : St)
        (r : Nat) (s₁ : St) (i0 : Int) (ints : List Int) (s₂ : St),
      eval fuel (.var a0) (warnState .Subtract (a0 :: rest) loc s) =
        .ok (.addr r) s₁ →
      getCell s₁ r = some (.Integer i0) →
      resolveAllInts fuel rest s₁ = some (ints, s₂) →
      foldOkBy (· - ·) i0 ints = true →
      eval (fuel + 2) (.intr .Subtract (a0 :: rest) loc) s =
        .ok (.addr s₂.cells.length)
          ((allocCell (.Integer (ints.foldl (· - ·) i0)) s₂).2)) ∧
    (∀ (fuel : Nat) (a0 : Nat) (rest : List Nat) (loc : Location) (s : St)
        (r : Nat) (s₁ : St) (v : LispType),
      eval fuel (.var a0) (warnState .Multiply (a0 :: rest) loc s) =
        .ok (.addr r) s₁ →
      getCell s₁ r = some v → (∀ i : Int, v ≠ .Integer i) →
      eval (fuel + 2) (.intr .Multiply (a0 :: rest) loc) s =
        .err "Cannot multiply with a non-integer type!" s₁) ∧
    (∀ (fuel : Nat) (a0 : Nat) (rest : List Nat) (loc : Location) (s : St)
        (r : Nat) (s₁ : St) (i0 : Int) (ints : List Int) (s₂ : St),
      eval fuel (.var a0) (warnState .Multiply (a0 :: rest) loc s) =
        .ok (.addr r) s₁ →
      getCell s₁ r = some (.Integer i0) →
      resolveAllInts fuel rest s₁ = some (ints, s₂) →
      foldOkBy (· * ·) i0 ints = true →
      eval (fuel + 2) (.intr .Multiply (a0 :: rest) loc) s =
        .ok (.addr s₂.cells.length)
          ((allocCell (.Integer (ints.foldl (· * ·) i0)) s₂).2)) ∧
    resVal (runLisp 64 "(- 10 3 2)" "f") = some (.Integer 5) ∧
    resVal (runLisp 64 "(* 3 4 5)" "f") = some (.Integer 60) := by
  refine ⟨?_, ?_, ?_, ?_, by decide, by decide⟩
  · intro fuel a0 rest loc s r s₁ v hv hg hne
    simp only [eval, List.get?]
    rw [hv]
    simp only [Res.bind_ok]
    rw [hg]
    cases v with
    | Integer i => exact absurd rfl (hne i)
    | Str s3 => rfl
    | Func f => rfl
    | Statement st => rfl
    | List l => rfl
    | Floating txt => rfl
    | Nil => rfl
  · intro fuel a0 rest loc s r s₁ i0 ints s₂ hv hg hres hfold
    simp only [eval, List.get?]
    rw [hv]
    simp only [Res.bind_ok]
    rw [hg]
    simp only [List.drop_succ_cons, List.drop_zero]
    exact subLoopSound fuel rest s₁ ints s₂ hres i0 hfold
  · intro fuel a0 rest loc s r s₁ v hv hg hne
    simp only [eval, List.get?]
    rw [hv]
    simp only [Res.bind_ok]
    rw [hg]
    cases v with
    | Integer i => exact absurd rfl (hne i)
    | Str s3 => rfl
    | Func f => rfl
    | Statement st => rfl
    | List l => rfl
    | Floating txt => rfl
    | Nil => rfl
  · intro fuel a0 rest loc s r s₁ i0 ints s₂ hv hg hres hfold
    simp only [eval, List.get?]
    rw [hv]
    simp only [Res.bind_ok]
    rw [hg]
    simp only [List.drop_succ_cons, List.drop_zero]
    exact mulLoopSound fuel rest s₁ ints s₂ hres i0 hfold

/-- Claim C3, counterexample: running `(print (+ 1 "a"))` raises a type
error while evaluating print's operand, yet `run` succeeds with
Integer 0 — the error is swallowed into the printed text (the single
output line is exactly the error message) instead of being returned to
the caller. -/
theorem C3_counterexample :
    resVal (runLisp 64 "(print (+ 1 \"a\"))" "f") = some (.Integer 0) ∧
    resOut (runLisp 64 "(print (+ 1 \"a\"))" "f") =
      some ["Cannot add a non-integer type to an integer: a!"] := by
  exact ⟨by decide, by decide⟩

/-- Claim C3 (amended): evaluation errors propagate unchanged through
`Statement::resolve` and out of `run_lisp` (an error from building or
resolving is handed to the caller as the error result) — except errors
raised while a `Statement` value is being formatted for display, as when
print renders an unevaluated operand: the `Display` impl catches the
error of the inner resolve and writes its text into the display output,
so the enclosing call continues and can succeed, as the run of
`(print (+ 1 "a"))` returning Integer 0 shows. -/
theorem C3_error_propagation :
    (∀ (fuel : Nat) (st : Stmt) (s : St) (f : IntrinsicOp) (e : String) (s₂ : St),
      getCell s st.op = some (.Func f) →
      eval fuel (.intr f st.args st.loc) s = .err e s₂ →
      eval (fuel + 1) (.stmt st) s = .err e s₂) ∧
    (∀ (fuel : Nat) (source file : String) (toks : List Token)
        (st : Stmt) (s : St),
      tokenize source file = some toks →
      buildAst scope0 fuel (.top toks { filename := file, line := 0, col := 0 })
        st0 = .built st s →
      runLisp fuel source file = eval fuel (.stmt st) s) ∧
    (∀ (fuel : Nat) (source file : String) (toks : List Token)
        (e : String) (s₂ : St),
      tokenize source file = some toks →
      buildAst scope0 fuel (.top toks { filename := file, line := 0, col := 0 })
        st0 = .err e s₂ →
      runLisp fuel source file = .err e s₂) ∧
    (∀ (fuel : Nat) (st : Stmt) (s : St) (e : String) (s₂ : St),
      eval fuel (.stmt st) s = .err e s₂ →
      eval (fuel + 1) (.disp (.Statement st)) s = .ok (.text e) s₂) ∧
    resVal (runLisp 64 "(print (+ 1 \"a\"))" "f") = some (.Integer 0) := by
  refine ⟨?_, ?_, ?_, ?_, by decide⟩
  · intro fuel st s f e s₂ hop hm
    simp only [eval, hop, hm]
  · intro fuel source file toks st s htok hbuild
    simp only [runLisp, htok, show defaultScope initSt = (scope0, st0) from rfl,
      hbuild]
  · intro fuel source file toks e s₂ htok hbuild
    simp only [runLisp, htok, show defaultScope initSt = (scope0, st0) from rfl,
      hbuild]
  · intro fuel st s e s₂ h
    simp only [eval, h]

/-- Claim C4: re-resolving a Call Node never consults its cache — states
differing only in the cache log evaluate observably alike — and a
successful resolve writes an alias of the returned cell (the same
address) into the node's `res` slot while every pre-existing cell,
including the node's operator and operand cells, keeps its content; the
`(print 1)` node built by `make_ast` resolves twice with the side effect
performed both times. -/
theorem C4_cache_write_only :
    (∀ (fuel : Nat) (st : Stmt) (s : St) (c : List (Nat × Option Nat)),
      ObsRel (eval fuel (.stmt st) { s with caches := c })
        (eval fuel (.stmt st) s)) ∧
    (∀ (fuel : Nat) (st : Stmt) (s : St) (a : Nat) (s₂ : St),
      eval fuel (.stmt st) s = .ok (.addr a) s₂ →
      lookupCache s₂ st.res = some (some a) ∧
      ∀ i, i < s.cells.length → getCell s₂ i = getCell s i) ∧
    (tokenize "(print 1)" "f").map
        (fun toks => buildAst scope0 50
          (.top toks { filename := "f", line := 0, col := 0 }) st0) =
      some (.built pNode pSt0) ∧
    eval 20 (.stmt pNode) pSt0 = .ok (.addr 5) pSt1 ∧
    pSt1.output = ["1"] ∧
    eval 20 (.stmt pNode) pSt1 = .ok (.addr 6) pSt2 ∧
    pSt2.output = ["1", "1"] := by
  refine ⟨?_, ?_, by decide, by decide, by decide, by decide, by decide⟩
  · intro fuel st s c
    exact evalObs fuel (.stmt st) _ s ⟨rfl, rfl, rfl⟩
  · intro fuel st s a s₂ h
    match fuel with
    | 0 => exact absurd h (fun hc => Res.noConfusion hc)
    | fuel + 1 =>
      simp only [eval] at h
      cases hop : getCell s st.op <;> rw [hop] at h
      case none => exact absurd h (by simp)
      case some v =>
        cases v with
        | Integer i => exact absurd h (by simp)
        | Str s3 => exact absurd h (by simp)
        | Statement st2 => exact absurd h (by simp)
        | List l => exact absurd h (by simp)
        | Floating txt => exact absurd h (by simp)
        | Nil => exact absurd h (by simp)
        | Func f =>
          dsimp only at h
          cases hm : eval fuel (.intr f st.args st.loc) s <;> rw [hm] at h <;>
            try exact absurd h (by simp)
          case ok o t =>
            cases o with
            | text t2 => exact absurd h (by simp)
            | addr a2 =>
              simp only [Res.ok.injEq, Out.addr.injEq] at h
              obtain ⟨ha, hs⟩ := h
              subst ha
              subst hs
              constructor
              · simp [lookupCache, setCache, List.find?]
              · intro i hi
                have hstab := evalStable fuel (.intr f st.args st.loc) s
                rw [hm] at hstab
                simp only [getCell, setCache]
                exact hstab.2 i hi

/-! ## Witnesses: the hypothesis-bearing claim theorems at concrete inputs -/
/-- Witness for C1: adding the two `Integer 1` cells of `aSt` returns a
fresh `Integer 2`. -/
theorem C1_add_behavior_witness :
    eval 11 (.intr .Add [4, 4] { filename := "f", line := 0, col := 0 }) aSt =
      .ok (.addr aSt.cells.length)
        ((allocCell (.Integer ([(1 : Int), 1].foldl (· + ·) 0)) aSt).2) :=
  C1_add_behavior.1 9 [4, 4] { filename := "f", line := 0, col := 0 } aSt
    [1, 1] aSt (by decide) (by decide)

/-- Witness for C2: subtracting `1` from `1` returns a fresh `Integer 0`. -/
theorem C2_sub_mul_fold_witness :
    eval 11 (.intr .Subtract (4 :: [4]) { filename := "f", line := 0, col := 0 })
        aSt =
      .ok (.addr aSt.cells.length)
        ((allocCell (.Integer ([(1 : Int)].foldl (· - ·) 1)) aSt).2) :=
  C2_sub_mul_fold.2.1 9 4 [4] { filename := "f", line := 0, col := 0 } aSt
    4 aSt 1 [1] aSt (by decide) (by decide) (by decide) (by decide)

/-- Witness for C3: displaying the failing Add node yields its error
text as a successful display. -/
theorem C3_error_propagation_witness :
    eval 21 (.disp (.Statement aNode)) aSt =
      .ok (.text "Cannot add a non-integer type to an integer: a!") aSt :=
  C3_error_propagation.2.2.2.1 20 aNode aSt
    "Cannot add a non-integer type to an integer: a!" aSt (by decide)

/-- Witness for C4: after the successful resolve of the `(print 1)`
node, its `res` slot holds the returned cell's address. -/
theorem C4_cache_write_only_witness :
    lookupCache pSt1 pNode.res = some (some 5) :=
  (C4_cache_write_only.2.1 20 pNode pSt0 5 pSt1 (by decide)).1

/-- Witness for C5: the text `34` classifies as `Integer 34`. -/
theorem C5_classifier_precedence_witness :
    fromText "34" = some (.Recognizable (.Integer 34)) :=
  (C5_classifier_precedence "34").1 34 (by decide)

/-- Witness for C7: mutating a cell in range is visible at that address. -/
theorem C7_clone_semantics_witness :
    getCell (setCell 0 (.Integer 7) ovSt) 0 = some (.Integer 7) :=
  C7_clone_semantics.2.2.2.2.2.2.2.2.2.2 ovSt 0 (.Integer 7) (by decide)

/-- Witness for C8: a one-operand Add prints the diagnostic and then
runs its normal loop. -/
theorem C8_arity_warnings_witness :
    eval 6 (.intr .Add [4] { filename := "f", line := 0, col := 0 }) aSt =
      eval 5 (.intrGo .Add [4] { filename := "f", line := 0, col := 0 })
        (pushOut (warnMsg .Add { filename := "f", line := 0, col := 0 }) aSt) :=
  C8_arity_warnings.1 5 [4] { filename := "f", line := 0, col := 0 } aSt
    (by decide)

/-- Witness for C9: printing the `Integer 1` cell outputs `1` and
returns a fresh `Integer 0`. -/
theorem C9_print_arity_witness :
    eval 7 (.intr .Print [4] { filename := "f", line := 0, col := 0 }) aSt =
      .ok (.addr (pushOut "1" aSt).cells.length)
        ((allocCell (.Integer 0) (pushOut "1" aSt)).2) :=
  C9_print_arity.2.2 5 4 { filename := "f", line := 0, col := 0 } aSt
    "1" aSt (by decide)

end Sul
